import Mathlib

/-!
Shallow embedding of `src/firmware/src/server.py`, the host-side utility for
the Tilta Nucleus Nano 2 motor controller (device enumeration and selection,
serial connection setup, a background reader loop, a command sender, a demo
sequence and an interactive session), together with theorems settling the
specification's claims about it.

Conventions of the embedding:
* Python strings are Lean `String`s; byte streams are `List Nat`
  (each element `< 256`).
* `str.strip()` and `str.upper()` / `str.lower()` are modelled for the ASCII
  range (`pyStrip`, `pyUpper`, `pyLower`); every literal the program compares
  against ("QUIT", "DEMO", "demo") is ASCII.
* `bytes.decode('utf-8', errors=...)` and `str.encode()` are modelled by an
  explicit UTF-8 codec (`utf8Encode`, `utf8Decode`) with the error policy
  (`ErrPolicy.ignore` / `ErrPolicy.replace`) as a parameter.
* Console I/O, prompts, serial opens, writes and sleeps are modelled as
  events in explicit traces; `input()` results and enumeration results are
  function arguments.
-/

/-- ASCII whitespace characters stripped by Python's `str.strip()`
(the model restricts `strip` to the ASCII range). -/
def pyWhitespaceChar (c : Char) : Bool :=
  c = ' ' || c = '\t' || c = '\n' || c = '\r' || c = '\x0b' || c = '\x0c'

/-- Model of Python `str.strip()`: drop leading and trailing whitespace. -/
def pyStrip (s : String) : String :=
  String.mk (((s.data.dropWhile pyWhitespaceChar).reverse.dropWhile
      pyWhitespaceChar).reverse)

/-- Model of Python `str.upper()` on the ASCII range. -/
def pyUpper (s : String) : String :=
  String.mk (s.data.map Char.toUpper)

/-- Model of Python `str.lower()` on the ASCII range. -/
def pyLower (s : String) : String :=
  String.mk (s.data.map Char.toLower)

/-- Model of Python `str(x)` on an optional string field
(`str(None)` is the text `"None"`). -/
def pyStr : Option String → String
  | none => "None"
  | some s => s

/-- `startsWithL needle hay`: does `hay` begin with `needle`? -/
def startsWithL : List Char → List Char → Bool
  | [], _ => true
  | _ :: _, [] => false
  | a :: as, b :: bs => a = b && startsWithL as bs

/-- `occursL needle hay`: does `needle` occur contiguously inside `hay`?
Model of Python's `needle in hay` on strings. -/
def occursL : List Char → List Char → Bool
  | needle, [] => startsWithL needle []
  | needle, b :: bs => startsWithL needle (b :: bs) || occursL needle bs

/-- Model of the Python expression `sub in s` (substring containment,
case-sensitive). -/
def strContains (s sub : String) : Bool :=
  occursL sub.data s.data

/-- UTF-8 encoding of a single character (code point), as a byte list. -/
def utf8EncodeChar (c : Char) : List Nat :=
  let v := c.toNat
  if v < 0x80 then [v]
  else if v < 0x800 then [0xC0 + v / 64, 0x80 + v % 64]
  else if v < 0x10000 then
    [0xE0 + v / 4096, 0x80 + v / 64 % 64, 0x80 + v % 64]
  else
    [0xF0 + v / 262144, 0x80 + v / 4096 % 64, 0x80 + v / 64 % 64,
      0x80 + v % 64]

/-- UTF-8 encoding of a string: model of Python `s.encode()`
(whose default codec is UTF-8). -/
def utf8Encode (s : String) : List Nat :=
  s.data.flatMap utf8EncodeChar

/-- Error policies of Python's `bytes.decode`: `errors='ignore'` drops the
offending bytes, `errors='replace'` substitutes U+FFFD for them. -/
inductive ErrPolicy
  | ignore
  | replace
deriving DecidableEq, Repr

/-- What a decode error contributes to the output under each policy. -/
def errOut : ErrPolicy → List Char
  | .ignore => []
  | .replace => [Char.ofNat 0xFFFD]

/-- Is `b` a UTF-8 continuation byte (`0x80 ≤ b ≤ 0xBF`)? -/
def isContByte (b : Nat) : Bool :=
  0x80 ≤ b && b < 0xC0

/-- Is `b1` admissible as the first continuation byte after lead byte `b`?
Encodes the restricted ranges that exclude overlong encodings, surrogates
and code points above U+10FFFF. -/
def validSecondByte (b b1 : Nat) : Bool :=
  if b = 0xE0 then 0xA0 ≤ b1 && b1 < 0xC0
  else if b = 0xED then 0x80 ≤ b1 && b1 < 0xA0
  else if b = 0xF0 then 0x90 ≤ b1 && b1 < 0xC0
  else if b = 0xF4 then 0x80 ≤ b1 && b1 < 0x90
  else isContByte b1

/-- UTF-8 decoding of a byte list under an error policy: model of Python
`data.decode('utf-8', errors=...)`.  A maximal valid prefix of an ill-formed
sequence is consumed as a single error, matching CPython's handler calls
closely enough for the policies in use. -/
def utf8Decode (pol : ErrPolicy) : List Nat → List Char
  | [] => []
  | b :: rest =>
    if b < 0x80 then Char.ofNat b :: utf8Decode pol rest
    else if 0xC2 ≤ b && b < 0xE0 then
      match rest with
      | [] => errOut pol
      | b1 :: rest1 =>
        if isContByte b1 then
          Char.ofNat ((b - 0xC0) * 64 + (b1 - 0x80)) :: utf8Decode pol rest1
        else errOut pol ++ utf8Decode pol (b1 :: rest1)
    else if 0xE0 ≤ b && b < 0xF0 then
      match rest with
      | [] => errOut pol
      | b1 :: rest1 =>
        if validSecondByte b b1 then
          match rest1 with
          | [] => errOut pol
          | b2 :: rest2 =>
            if isContByte b2 then
              Char.ofNat ((b - 0xE0) * 4096 + (b1 - 0x80) * 64 + (b2 - 0x80))
                :: utf8Decode pol rest2
            else errOut pol ++ utf8Decode pol (b2 :: rest2)
        else errOut pol ++ utf8Decode pol (b1 :: rest1)
    else if 0xF0 ≤ b && b < 0xF5 then
      match rest with
      | [] => errOut pol
      | b1 :: rest1 =>
        if validSecondByte b b1 then
          match rest1 with
          | [] => errOut pol
          | b2 :: rest2 =>
            if isContByte b2 then
              match rest2 with
              | [] => errOut pol
              | b3 :: rest3 =>
                if isContByte b3 then
                  Char.ofNat ((b - 0xF0) * 262144 + (b1 - 0x80) * 4096 +
                      (b2 - 0x80) * 64 + (b3 - 0x80)) :: utf8Decode pol rest3
                else errOut pol ++ utf8Decode pol (b3 :: rest3)
            else errOut pol ++ utf8Decode pol (b2 :: rest2)
        else errOut pol ++ utf8Decode pol (b1 :: rest1)
    else errOut pol ++ utf8Decode pol rest

/-- `send_command(ser, command)`: writes `f"{command}\r\n".encode()` to the
serial connection and then sleeps 0.1 s.  Modelled as the pair (bytes put on
the wire, sleep duration in milliseconds). -/
def send_command (command : String) : List Nat × Nat :=
  (utf8Encode (command ++ "\r\n"), 100)

/-- A serial port descriptor as produced by `serial.tools.list_ports.comports()`:
device path, human-readable description, optional manufacturer. -/
structure PortInfo where
  device : String
  description : String
  manufacturer : Option String
deriving DecidableEq, Repr

/-- A placeholder descriptor used only as the default of `List.getD`;
every use is guarded by an index-in-range hypothesis. -/
def dummyPort : PortInfo := ⟨"", "", none⟩

/-- The candidate test of `list_devices`:
`"Tilta Motor Control" in str(port.description) or
 "Straw Lab" in str(port.manufacturer)`. -/
def isCandidate (p : PortInfo) : Bool :=
  strContains p.description "Tilta Motor Control" ||
    strContains (pyStr p.manufacturer) "Straw Lab"

/-- `list_devices()`: given the enumerated ports, returns the pair
`(ports, devices)` where `devices` keeps exactly the descriptors passing the
candidate test, in enumeration order.  (The printing of each port with its
index is modelled in `connect_to_device`'s trace.) -/
def list_devices (ports : List PortInfo) : List PortInfo × List PortInfo :=
  (ports, ports.filter isCandidate)

/-- Observable events of `connect_to_device`: console output lines, `input()`
prompts, and attempts to open a serial port. -/
inductive CEvent
  | out (s : String)
  | prompt (s : String)
  | openPort (p : String)
deriving DecidableEq, Repr

/-- The lines `list_devices` prints: one `f"{i}: {port.device} - {port.description}"`
per enumerated port. -/
def enumOut (ports : List PortInfo) : List CEvent :=
  ports.enum.map (fun ip =>
    CEvent.out (toString ip.1 ++ ": " ++ ip.2.device ++ " - " ++ ip.2.description))

/-- The final `try: ser = serial.Serial(port_name, 115200, timeout=1) ...` of
`connect_to_device`; `openOk` models whether the open raises
`serial.SerialException`.  (The exception text interpolated into the failure
message is not modelled.) -/
def openSerial (port : String) (openOk : Bool) : Option String × List CEvent :=
  if openOk then
    (some port, [CEvent.openPort port, CEvent.out ("Connected to " ++ port)])
  else
    (none, [CEvent.openPort port,
      CEvent.out ("Failed to connect to " ++ port)])

/-- `connect_to_device(port_name=None)`.  Arguments model the environment:
`ports` is what `serial.tools.list_ports.comports()` returns, `sel` is the
result of `int(input(...))` at whichever prompt is reached (`none` models a
`ValueError` from a non-numeric entry), `openOk` whether `serial.Serial`
succeeds.  Returns the connection (the opened port path) or `none`, together
with the trace of console and serial events. -/
def connect_to_device (port_name : Option String) (ports : List PortInfo)
    (sel : Option Int) (openOk : Bool) : Option String × List CEvent :=
  match port_name with
  | some p => openSerial p openOk
  | none =>
    let pd := list_devices ports
    let devices := pd.2
    let listed := enumOut pd.1
    if devices.length ≠ 0 then
      if devices.length = 1 then
        let p := (devices.getD 0 dummyPort).device
        let oc := openSerial p openOk
        (oc.1,
          listed ++ [CEvent.out ("\nAuto-detected motor controller on " ++ p)]
            ++ oc.2)
      else
        let header :=
          [CEvent.out ("\nFound " ++ toString devices.length ++
            " motor controllers:")] ++
          devices.enum.map (fun ip =>
            CEvent.out ("  " ++ toString ip.1 ++ ": " ++ ip.2.device))
        match sel with
        | none =>
          (none, listed ++ header ++
            [CEvent.prompt "Select device number: ", CEvent.out "Invalid input!"])
        | some k =>
          if 0 ≤ k ∧ k < devices.length then
            let p := (devices.getD k.toNat dummyPort).device
            let oc := openSerial p openOk
            (oc.1, listed ++ header ++
              [CEvent.prompt "Select device number: "] ++ oc.2)
          else
            (none, listed ++ header ++
              [CEvent.prompt "Select device number: ",
                CEvent.out "Invalid selection!"])
    else
      if ports.length = 0 then
        (none, listed ++ [CEvent.out "No serial ports found!"])
      else
        match sel with
        | none =>
          (none, listed ++
            [CEvent.prompt "\nNo motor controller found. Select port number: ",
              CEvent.out "Invalid input!"])
        | some k =>
          if 0 ≤ k ∧ k < ports.length then
            let p := (ports.getD k.toNat dummyPort).device
            let oc := openSerial p openOk
            (oc.1, listed ++
              [CEvent.prompt "\nNo motor controller found. Select port number: "]
              ++ oc.2)
          else
            (none, listed ++
              [CEvent.prompt "\nNo motor controller found. Select port number: ",
                CEvent.out "Invalid selection!"])

/-- Observable events of `demo_mode` and of the sessions: console output,
bytes written to the serial connection, sleeps (in milliseconds), a run of
the demo sequence, a caught interrupt, and the final `ser.close()`. -/
inductive Ev
  | out (s : String)
  | wire (bs : List Nat)
  | sleep (ms : Nat)
  | close
deriving DecidableEq, Repr

/-- The `positions` list of `demo_mode`, verbatim from the source. -/
def demo_positions : List (Nat × String) :=
  [(0, "Minimum position"),
   (1024, "Quarter position"),
   (2048, "Center position"),
   (3072, "Three-quarter position"),
   (4095, "Maximum position"),
   (2048, "Back to center")]

/-- One iteration of `demo_mode`'s loop: print `f"\n{desc}..."`, call
`send_command(ser, f"POS {pos}")` (a write plus its 0.1 s grace sleep), then
`time.sleep(2)`. -/
def demoStep (pd : Nat × String) : List Ev :=
  let sc := send_command ("POS " ++ toString pd.1)
  [Ev.out ("\n" ++ pd.2 ++ "..."),
   Ev.wire sc.1, Ev.sleep sc.2, Ev.sleep 2000]

/-- `demo_mode(ser)`: the full event trace of one demo run. -/
def demo_mode : List Ev :=
  [Ev.out "\n=== DEMO MODE ===", Ev.out "Running motor demo sequence..."] ++
    demo_positions.flatMap demoStep ++ [Ev.out "\nDemo complete!"]

/-- The command texts put on the wire by a trace, decoded positionally: each
`Ev.wire` event contributes its byte list. -/
def wireWrites (tr : List Ev) : List (List Nat) :=
  tr.filterMap (fun e => match e with | Ev.wire bs => some bs | _ => none)

/-- The dispatch of one iteration of `interactive_mode`'s loop on the line
returned by `input()`:
`cmd = input().strip()`, then `QUIT` / `DEMO` (case-insensitively, after the
strip) / non-empty / empty. -/
inductive IAction
  | quit
  | demo
  | send (cmd : String)
  | noop
deriving DecidableEq, Repr

/-- `cmd = input().strip()` followed by the `if`/`elif` chain of
`interactive_mode`. -/
def dispatch (line : String) : IAction :=
  let cmd := pyStrip line
  if pyUpper cmd = "QUIT" then IAction.quit
  else if pyUpper cmd = "DEMO" then IAction.demo
  else if cmd ≠ "" then IAction.send cmd
  else IAction.noop

/-- Decrement an optional countdown (used for the interrupt schedule). -/
def decrIntr : Option Nat → Option Nat
  | none => none
  | some n => some (n - 1)

/-- The loop of `interactive_mode(ser)` (the reader thread's output is not
part of this trace; it is modelled by `readChunk`).  `lines` are the values
successive `input()` calls return; `intr = some k` means a
`KeyboardInterrupt` is delivered at the k-th blocking `input()` call
(0-based), which the `except KeyboardInterrupt` arm catches, printing
`"\nExiting..."` and breaking out.  Returns the event trace and whether the
function returned normally (`false` models an uncaught exception—`input()`
raising `EOFError` when the lines run out). -/
def interactiveLoop (lines : List String) (intr : Option Nat) :
    List Ev × Bool :=
  match intr with
  | some 0 => ([Ev.out "\nExiting..."], true)
  | _ =>
    match lines with
    | [] => ([], false)
    | l :: rest =>
      match dispatch l with
      | IAction.quit => ([], true)
      | IAction.demo =>
        let r := interactiveLoop rest (decrIntr intr)
        (demo_mode ++ r.1, r.2)
      | IAction.send c =>
        let sc := send_command c
        let r := interactiveLoop rest (decrIntr intr)
        (Ev.wire sc.1 :: Ev.sleep sc.2 :: r.1, r.2)
      | IAction.noop => interactiveLoop rest (decrIntr intr)

/-- The help banner `interactive_mode` prints on entry. -/
def interactiveBanner : List Ev :=
  [Ev.out "\n=== INTERACTIVE MODE ===", Ev.out "Commands:",
   Ev.out "  POS <0-4095>  - Set motor position",
   Ev.out "  STATUS        - Get current status",
   Ev.out "  HELP          - Show device help",
   Ev.out "  DEMO          - Run demo sequence",
   Ev.out "  QUIT          - Exit",
   Ev.out ""]

/-- `interactive_mode(ser)`: banner, then the loop. -/
def interactive_mode (lines : List String) (intr : Option Nat) :
    List Ev × Bool :=
  let r := interactiveLoop lines intr
  (interactiveBanner ++ r.1, r.2)

/-- Did the CLI request demo mode:
`len(sys.argv) > 1 and sys.argv[1].lower() == "demo"`. -/
def isDemoArg (argv1 : Option String) : Bool :=
  match argv1 with
  | none => false
  | some s => pyLower s = "demo"

/-- The mode-dispatch-and-close tail of `main()` (after a connection was
successfully opened, settled and drained).  `argv1` is `sys.argv[1]` if
present.  For the demo branch, `intrDemo` models a `KeyboardInterrupt`
delivered during the demo sequence: `demo_mode` and `main` do not catch it,
so the run aborts before `ser.close()`.  For the interactive branch, `lines`
and `intr` are passed to `interactive_mode`, whose loop catches the interrupt
itself; `ser.close()` runs only if `interactive_mode` returns normally.
Returns the event trace of this tail. -/
def mainTail (argv1 : Option String) (lines : List String)
    (intr : Option Nat) (intrDemo : Bool) : List Ev :=
  if isDemoArg argv1 then
    if intrDemo then demo_mode.take 3
    else demo_mode ++ [Ev.close, Ev.out "Disconnected"]
  else
    let r := interactive_mode lines intr
    if r.2 then r.1 ++ [Ev.close, Ev.out "Disconnected"]
    else r.1

/-- Is an event the `ser.close()` call? -/
def isClose : Ev → Bool
  | Ev.close => true
  | _ => false

/-- The number of times a trace closes the connection. -/
def closeCount (tr : List Ev) : Nat :=
  (tr.filter isClose).length

/-- One pass of `read_responses`'s body when `ser.in_waiting` is nonzero:
`ser.read(ser.in_waiting).decode('utf-8', errors='ignore')` printed with
`flush=True`.  Modelled as the decoded text and the flush flag. -/
def readChunk (chunk : List Nat) : List Char × Bool :=
  (utf8Decode ErrPolicy.ignore chunk, true)

/-- Spec-side notion of substring containment, written from the spec's words
("its description contains a known product-name substring"): `sub` occurs
contiguously in `s`. -/
def SpecSubstr (sub s : String) : Prop :=
  ∃ pre post, s = pre ++ sub ++ post

/-- Spec-side classification of a candidate device, written from the spec's
words: the description contains the product-name substring, or the
manufacturer contains the vendor substring, case-sensitively. -/
def SpecCandidate (p : PortInfo) : Prop :=
  SpecSubstr "Tilta Motor Control" p.description ∨
    SpecSubstr "Straw Lab" (pyStr p.manufacturer)

/-- An interactive selection entry that fails the code's validation: either
`int(input(...))` raised `ValueError` (non-numeric), or the parsed integer
lies outside `[0, count)` of the offered list. -/
def BadSel (sel : Option Int) (count : Nat) : Prop :=
  sel = none ∨ ∃ k : Int, sel = some k ∧ (k < 0 ∨ (count : Int) ≤ k)

theorem startsWithL_iff (n h : List Char) :
    startsWithL n h = true ↔ ∃ t, h = n ++ t := by
  induction n generalizing h with
  | nil => simp [startsWithL]
  | cons a as ih =>
    cases h with
    | nil => simp [startsWithL]
    | cons b bs =>
      simp only [startsWithL, Bool.and_eq_true, decide_eq_true_eq, ih,
        List.cons_append, List.cons.injEq]
      constructor
      · rintro ⟨rfl, t, rfl⟩
        exact ⟨t, rfl, rfl⟩
      · rintro ⟨t, rfl, rfl⟩
        exact ⟨rfl, t, rfl⟩

theorem occursL_iff (n h : List Char) :
    occursL n h = true ↔ ∃ pre post, h = pre ++ n ++ post := by
  induction h with
  | nil =>
    simp only [occursL, startsWithL_iff]
    constructor
    · rintro ⟨t, ht⟩
      exact ⟨[], t, ht⟩
    · rintro ⟨pre, post, hp⟩
      rcases List.append_eq_nil.mp (List.append_eq_nil.mp hp.symm).1 with ⟨h1, h2⟩
      exact ⟨[], by rw [h2]; rfl⟩
  | cons b bs ih =>
    simp only [occursL, Bool.or_eq_true, startsWithL_iff, ih]
    constructor
    · rintro (⟨t, ht⟩ | ⟨pre, post, hp⟩)
      · exact ⟨[], t, by simpa using ht⟩
      · exact ⟨b :: pre, post, by simp [hp]⟩
    · rintro ⟨pre, post, hp⟩
      cases pre with
      | nil => exact Or.inl ⟨post, by simpa using hp⟩
      | cons p ps =>
        simp only [List.cons_append, List.cons.injEq] at hp
        exact Or.inr ⟨ps, post, hp.2⟩

theorem strContains_iff (s sub : String) :
    strContains s sub = true ↔ SpecSubstr sub s := by
  unfold strContains SpecSubstr
  rw [occursL_iff]
  constructor
  · rintro ⟨a, b, hab⟩
    refine ⟨String.mk a, String.mk b, String.ext ?_⟩
    simpa [String.data_append] using hab
  · rintro ⟨pre, post, rfl⟩
    exact ⟨pre.data, post.data, by simp [String.data_append]⟩

theorem isCandidate_iff (p : PortInfo) :
    isCandidate p = true ↔ SpecCandidate p := by
  simp [isCandidate, SpecCandidate, Bool.or_eq_true, strContains_iff]

/-- Claim C9: `list_devices` returns the full ordered port list together with
the subset of descriptors classified as candidate devices, where a descriptor
is a candidate if and only if its description contains the product-name
substring "Tilta Motor Control" or its manufacturer contains the vendor
substring "Straw Lab" (case-sensitive contiguous substring containment); the
candidate subset preserves the enumeration order. -/
theorem c9_list_devices_classification (ports : List PortInfo) (p : PortInfo) :
    (list_devices ports).1 = ports ∧
    (p ∈ (list_devices ports).2 ↔ p ∈ ports ∧ SpecCandidate p) ∧
    (list_devices ports).2.Sublist ports := by
  refine ⟨rfl, ?_, List.filter_sublist ports⟩
  simp [list_devices, List.mem_filter, isCandidate_iff]

theorem utf8Encode_append (s t : String) :
    utf8Encode (s ++ t) = utf8Encode s ++ utf8Encode t := by
  simp [utf8Encode, String.data_append, List.flatMap_append]

theorem char_toNat_facts (c : Char) :
    c.toNat < 1114112 ∧ (c.toNat < 55296 ∨ 57343 < c.toNat) := by
  have h := c.valid
  rcases h with h | h <;> simp only [Char.toNat] <;> omega

theorem utf8Decode_one (pol : ErrPolicy) (b : Nat) (l : List Nat)
    (h : b < 0x80) :
    utf8Decode pol (b :: l) = Char.ofNat b :: utf8Decode pol l := by
  rw [utf8Decode.eq_def]
  simp [h]

theorem utf8Decode_two (pol : ErrPolicy) (b b1 : Nat) (l : List Nat)
    (h1 : 0xC2 ≤ b) (h2 : b < 0xE0) (h3 : isContByte b1 = true) :
    utf8Decode pol (b :: b1 :: l) =
      Char.ofNat ((b - 0xC0) * 64 + (b1 - 0x80)) :: utf8Decode pol l := by
  have hn : ¬ b < 0x80 := by omega
  rw [utf8Decode.eq_def]
  simp [hn, h1, h2, h3]

theorem utf8Decode_three (pol : ErrPolicy) (b b1 b2 : Nat) (l : List Nat)
    (h1 : 0xE0 ≤ b) (h2 : b < 0xF0)
    (hv : validSecondByte b b1 = true) (h3 : isContByte b2 = true) :
    utf8Decode pol (b :: b1 :: b2 :: l) =
      Char.ofNat ((b - 0xE0) * 4096 + (b1 - 0x80) * 64 + (b2 - 0x80)) ::
        utf8Decode pol l := by
  have hn0 : ¬ b < 0x80 := by omega
  have hn1 : ¬ b < 0xE0 := by omega
  rw [utf8Decode.eq_def]
  simp [hn0, hn1, h1, h2, hv, h3]

theorem utf8Decode_four (pol : ErrPolicy) (b b1 b2 b3 : Nat) (l : List Nat)
    (h1 : 0xF0 ≤ b) (h2 : b < 0xF5)
    (hv : validSecondByte b b1 = true) (h3 : isContByte b2 = true)
    (h4 : isContByte b3 = true) :
    utf8Decode pol (b :: b1 :: b2 :: b3 :: l) =
      Char.ofNat ((b - 0xF0) * 262144 + (b1 - 0x80) * 4096 +
        (b2 - 0x80) * 64 + (b3 - 0x80)) :: utf8Decode pol l := by
  have hn0 : ¬ b < 0x80 := by omega
  have hn1 : ¬ b < 0xE0 := by omega
  have hn2 : ¬ b < 0xF0 := by omega
  rw [utf8Decode.eq_def]
  simp [hn0, hn1, hn2, h1, h2, hv, h3, h4]

theorem utf8Decode_encodeChar (pol : ErrPolicy) (c : Char) (l : List Nat) :
    utf8Decode pol (utf8EncodeChar c ++ l) = c :: utf8Decode pol l := by
  obtain ⟨hlt, hs⟩ := char_toNat_facts c
  set v := c.toNat with hv
  by_cases hA : v < 0x80
  · have he : utf8EncodeChar c = [v] := by
      simp [utf8EncodeChar, ← hv, hA]
    rw [he]
    simp only [List.cons_append, List.nil_append]
    rw [utf8Decode_one pol v l hA, hv, Char.ofNat_toNat]
  · by_cases hB : v < 0x800
    · have he : utf8EncodeChar c = [0xC0 + v / 64, 0x80 + v % 64] := by
        simp [utf8EncodeChar, ← hv, hA, hB]
      rw [he]
      simp only [List.cons_append, List.nil_append]
      rw [utf8Decode_two pol _ _ l (by omega) (by omega)
        (by simp only [isContByte, Bool.and_eq_true, decide_eq_true_eq]; omega)]
      have hval : (0xC0 + v / 64 - 0xC0) * 64 + (0x80 + v % 64 - 0x80) = v := by
        omega
      rw [hval, hv, Char.ofNat_toNat]
    · by_cases hC : v < 0x10000
      · have he : utf8EncodeChar c =
            [0xE0 + v / 4096, 0x80 + v / 64 % 64, 0x80 + v % 64] := by
          simp [utf8EncodeChar, ← hv, hA, hB, hC]
        have hvsb : validSecondByte (0xE0 + v / 4096) (0x80 + v / 64 % 64)
            = true := by
          simp only [validSecondByte, isContByte]
          split_ifs with he0 hed hf0 hf4 <;>
            simp only [Bool.and_eq_true, decide_eq_true_eq] <;> omega
        rw [he]
        simp only [List.cons_append, List.nil_append]
        rw [utf8Decode_three pol _ _ _ l (by omega) (by omega) hvsb
          (by simp only [isContByte, Bool.and_eq_true, decide_eq_true_eq]; omega)]
        have hval : (0xE0 + v / 4096 - 0xE0) * 4096 +
            (0x80 + v / 64 % 64 - 0x80) * 64 + (0x80 + v % 64 - 0x80) = v := by
          omega
        rw [hval, hv, Char.ofNat_toNat]
      · have he : utf8EncodeChar c =
            [0xF0 + v / 262144, 0x80 + v / 4096 % 64, 0x80 + v / 64 % 64,
              0x80 + v % 64] := by
          simp [utf8EncodeChar, ← hv, hA, hB, hC]
        have hvsb : validSecondByte (0xF0 + v / 262144) (0x80 + v / 4096 % 64)
            = true := by
          simp only [validSecondByte, isContByte]
          split_ifs with he0 hed hf0 hf4 <;>
            simp only [Bool.and_eq_true, decide_eq_true_eq] <;> omega
        rw [he]
        simp only [List.cons_append, List.nil_append]
        rw [utf8Decode_four pol _ _ _ _ l (by omega) (by omega) hvsb
          (by simp only [isContByte, Bool.and_eq_true, decide_eq_true_eq]; omega)
          (by simp only [isContByte, Bool.and_eq_true, decide_eq_true_eq]; omega)]
        have hval : (0xF0 + v / 262144 - 0xF0) * 262144 +
            (0x80 + v / 4096 % 64 - 0x80) * 4096 +
            (0x80 + v / 64 % 64 - 0x80) * 64 + (0x80 + v % 64 - 0x80) = v := by
          omega
        rw [hval, hv, Char.ofNat_toNat]

theorem utf8Decode_flatMap (pol : ErrPolicy) (cs : List Char) :
    utf8Decode pol (cs.flatMap utf8EncodeChar) = cs := by
  induction cs with
  | nil => rfl
  | cons c cs ih =>
    rw [List.flatMap_cons, utf8Decode_encodeChar, ih]

/-- Decoding is a left inverse of encoding, under either error policy: on
well-formed UTF-8 input the two policies agree and reproduce the text. -/
theorem utf8Decode_utf8Encode (pol : ErrPolicy) (s : String) :
    utf8Decode pol (utf8Encode s) = s.data :=
  utf8Decode_flatMap pol s.data

/-- Claim C1: for every text `T` passed to `send_command`, the bytes written
to the connection are exactly the UTF-8 encoding of `T` followed by CR LF
(no escaping or transformation of `T`'s content), and the call is followed by
a fixed sleep of 100 ms. -/
theorem c1_send_command_exact_bytes (t : String) :
    (send_command t).1 = utf8Encode t ++ [13, 10] ∧
    (send_command t).2 = 100 := by
  constructor
  · show utf8Encode (t ++ "\r\n") = utf8Encode t ++ [13, 10]
    rw [utf8Encode_append]
    rfl
  · rfl

/-- Claim C2: a run of `demo_mode` sends exactly six commands of the form
`POS <n>`, in the literal order n = 0, 1024, 2048, 3072, 4095, 2048, each
preceded by printing its human-readable label and each followed by the fixed
2-second pause (after the sender's own 100 ms grace sleep), with no steps
skipped, repeated or reordered. -/
theorem c2_demo_sequence :
    wireWrites demo_mode =
      ["POS 0", "POS 1024", "POS 2048", "POS 3072", "POS 4095",
        "POS 2048"].map (fun c => utf8Encode (c ++ "\r\n")) ∧
    demo_mode =
      [Ev.out "\n=== DEMO MODE ===",
        Ev.out "Running motor demo sequence..."] ++
      ([("POS 0", "Minimum position"), ("POS 1024", "Quarter position"),
        ("POS 2048", "Center position"),
        ("POS 3072", "Three-quarter position"),
        ("POS 4095", "Maximum position"),
        ("POS 2048", "Back to center")].flatMap
        (fun cd => [Ev.out ("\n" ++ cd.2 ++ "..."),
          Ev.wire (utf8Encode (cd.1 ++ "\r\n")), Ev.sleep 100,
          Ev.sleep 2000])) ++
      [Ev.out "\nDemo complete!"] := by
  constructor <;> decide

/-- Claim C4 as stated is false on the code: `read_responses` decodes with
`errors='ignore'`, which silently drops undecodable bytes instead of
replacing them.  On the chunk `[0xFF]` the reader prints nothing, while a
replacing decode would print U+FFFD. -/
theorem c4_cex_ignore_not_replace :
    (readChunk [0xFF]).1 ≠ utf8Decode ErrPolicy.replace [0xFF] ∧
    (readChunk [0xFF]).1 = [] ∧
    utf8Decode ErrPolicy.replace [0xFF] = [Char.ofNat 0xFFFD] := by
  decide

/-- Claim C4 (amended): every chunk the reader loop obtains is decoded as
UTF-8 with undecodable bytes silently dropped (`errors='ignore'`; the decode
never fails), and the resulting text is written to standard output with a
flush; on well-formed UTF-8 input the decode reproduces the sent text
exactly. -/
theorem c4_reader_decode_and_flush (chunk : List Nat) (s : String) :
    (readChunk chunk).1 = utf8Decode ErrPolicy.ignore chunk ∧
    (readChunk chunk).2 = true ∧
    (readChunk (utf8Encode s)).1 = s.data :=
  ⟨rfl, rfl, utf8Decode_utf8Encode ErrPolicy.ignore s⟩

theorem interactiveLoop_cons_none (l : String) (rest : List String) :
    interactiveLoop (l :: rest) none =
      match dispatch l with
      | IAction.quit => ([], true)
      | IAction.demo =>
        (demo_mode ++ (interactiveLoop rest none).1,
          (interactiveLoop rest none).2)
      | IAction.send c =>
        (Ev.wire (send_command c).1 :: Ev.sleep (send_command c).2 ::
          (interactiveLoop rest none).1, (interactiveLoop rest none).2)
      | IAction.noop => interactiveLoop rest none := by
  rw [interactiveLoop.eq_def]
  cases hd : dispatch l <;> simp [hd, decrIntr]

/-- Claim C3 as stated is false on the code: the line `" pos 10 "` is
non-empty and is neither QUIT nor DEMO in any letter case, yet it is not
passed to the sender verbatim — the loop strips it first and sends
`"pos 10"`. -/
theorem c3_cex_raw_line_not_sent :
    " pos 10 " ≠ "" ∧
    pyUpper " pos 10 " ≠ "QUIT" ∧
    pyUpper " pos 10 " ≠ "DEMO" ∧
    dispatch " pos 10 " ≠ IAction.send " pos 10 " ∧
    dispatch " pos 10 " = IAction.send "pos 10" := by
  decide

/-- Claim C3 (amended): the interactive loop dispatches on the stripped
input line.  A line that strips to "QUIT" in any letter case terminates the
loop with nothing sent to the device (later lines are not read); a line that
strips to "DEMO" in any letter case runs the demo sequence locally and is
never itself sent; a line that strips to the empty string is a no-op; and
any other line is passed to the command sender in its stripped form,
producing the stripped text followed by CR LF on the wire. -/
theorem c3_interactive_dispatch (l : String) (rest : List String) :
    (pyUpper (pyStrip l) = "QUIT" →
      interactiveLoop (l :: rest) none = ([], true)) ∧
    (pyUpper (pyStrip l) = "DEMO" →
      interactiveLoop (l :: rest) none =
        (demo_mode ++ (interactiveLoop rest none).1,
          (interactiveLoop rest none).2)) ∧
    (pyStrip l = "" → interactiveLoop (l :: rest) none =
      interactiveLoop rest none) ∧
    (pyStrip l ≠ "" → pyUpper (pyStrip l) ≠ "QUIT" →
      pyUpper (pyStrip l) ≠ "DEMO" →
      interactiveLoop (l :: rest) none =
        (Ev.wire (utf8Encode (pyStrip l) ++ [13, 10]) :: Ev.sleep 100 ::
          (interactiveLoop rest none).1, (interactiveLoop rest none).2)) := by
  refine ⟨?_, ?_, ?_, ?_⟩
  · intro h
    rw [interactiveLoop_cons_none]
    simp [dispatch, h]
  · intro h
    have hq : pyUpper (pyStrip l) ≠ "QUIT" := by simp [h]
    rw [interactiveLoop_cons_none]
    simp [dispatch, h, hq]
  · intro h
    rw [interactiveLoop_cons_none]
    simp only [dispatch, h]
    rfl
  · intro h hq hd
    rw [interactiveLoop_cons_none]
    simp only [dispatch, if_neg hq, if_neg hd, if_pos h]
    simp only [send_command, utf8Encode_append]
    rfl

/-- Witness for the amended claim C3 at concrete inputs. -/
theorem c3_witness :
    interactiveLoop ["Quit", "pos 1"] none = ([], true) ∧
    interactiveLoop [" pos 10 "] none =
      (Ev.wire (utf8Encode "pos 10" ++ [13, 10]) :: Ev.sleep 100 ::
        (interactiveLoop [] none).1, (interactiveLoop [] none).2) := by
  constructor
  · exact (c3_interactive_dispatch "Quit" ["pos 1"]).1 (by decide)
  · exact (c3_interactive_dispatch " pos 10 " []).2.2.2 (by decide)
      (by decide) (by decide)

/-- Claim C10: every interactive input line is stripped of leading and
trailing whitespace before dispatch: a line consisting only of whitespace is
a no-op, a line stripping to "QUIT" in any letter case (e.g. surrounded by
whitespace) terminates the session, and any line dispatched to the sender is
sent in its stripped form followed by CR LF rather than as the raw line. -/
theorem c10_strip_before_dispatch (line : String) :
    ((∀ ch ∈ line.data, pyWhitespaceChar ch = true) →
      dispatch line = IAction.noop) ∧
    (pyUpper (pyStrip line) = "QUIT" → dispatch line = IAction.quit) ∧
    (∀ c, dispatch line = IAction.send c →
      c = pyStrip line ∧
      (send_command c).1 = utf8Encode (pyStrip line) ++ [13, 10]) := by
  refine ⟨?_, ?_, ?_⟩
  · intro h
    have hstrip : pyStrip line = "" := by
      have h1 : line.data.dropWhile pyWhitespaceChar = [] :=
        List.dropWhile_eq_nil_iff.mpr (fun x hx => h x hx)
      simp [pyStrip, h1]
    simp only [dispatch, hstrip]
    rfl
  · intro h
    simp [dispatch, h]
  · intro c hc
    unfold dispatch at hc
    by_cases hq : pyUpper (pyStrip line) = "QUIT"
    · simp [hq] at hc
    · by_cases hd : pyUpper (pyStrip line) = "DEMO"
      · simp [hq, hd] at hc
      · by_cases he : pyStrip line = ""
        · rw [he] at hc
          exact IAction.noConfusion hc
        · simp only [if_neg hq, if_neg hd, if_pos he] at hc
          cases hc
          constructor
          · rfl
          · rw [show (send_command (pyStrip line)).1 =
              utf8Encode (pyStrip line ++ "\r\n") from rfl, utf8Encode_append]
            rfl

/-- Witness for claim C10 at concrete inputs. -/
theorem c10_witness :
    dispatch "   " = IAction.noop ∧
    dispatch "  qUIt  " = IAction.quit ∧
    (send_command "pos 10").1 = utf8Encode (pyStrip "  pos 10  ") ++ [13, 10] := by
  refine ⟨(c10_strip_before_dispatch "   ").1 (by decide),
    (c10_strip_before_dispatch "  qUIt  ").2.1 (by decide),
    ((c10_strip_before_dispatch "  pos 10  ").2.2 "pos 10" (by decide)).2⟩

theorem closeCount_append (a b : List Ev) :
    closeCount (a ++ b) = closeCount a + closeCount b := by
  simp [closeCount, List.filter_append]

theorem closeCount_demo : closeCount demo_mode = 0 := by decide

theorem closeCount_banner : closeCount interactiveBanner = 0 := by decide

theorem interactiveLoop_cons_ne (l : String) (rest : List String)
    (intr : Option Nat) (h : intr ≠ some 0) :
    interactiveLoop (l :: rest) intr =
      match dispatch l with
      | IAction.quit => ([], true)
      | IAction.demo =>
        (demo_mode ++ (interactiveLoop rest (decrIntr intr)).1,
          (interactiveLoop rest (decrIntr intr)).2)
      | IAction.send c =>
        (Ev.wire (send_command c).1 :: Ev.sleep (send_command c).2 ::
          (interactiveLoop rest (decrIntr intr)).1,
          (interactiveLoop rest (decrIntr intr)).2)
      | IAction.noop => interactiveLoop rest (decrIntr intr) := by
  rw [interactiveLoop.eq_def]
  rcases intr with _ | n
  · cases hd : dispatch l <;> simp [hd]
  · cases n with
    | zero => exact absurd rfl h
    | succ m => cases hd : dispatch l <;> simp [hd]

theorem closeCount_cons_not (e : Ev) (tr : List Ev)
    (h : isClose e = false) : closeCount (e :: tr) = closeCount tr := by
  simp [closeCount, List.filter_cons, h]

theorem interactiveLoop_no_close (lines : List String) (intr : Option Nat) :
    closeCount (interactiveLoop lines intr).1 = 0 := by
  induction lines generalizing intr with
  | nil =>
    rcases intr with _ | n
    · rfl
    · cases n with
      | zero => rfl
      | succ m => rfl
  | cons l rest ih =>
    by_cases h0 : intr = some 0
    · subst h0
      rfl
    · rw [interactiveLoop_cons_ne l rest intr h0]
      cases hd : dispatch l
      · rfl
      · show closeCount
            (demo_mode ++ (interactiveLoop rest (decrIntr intr)).1) = 0
        rw [closeCount_append, closeCount_demo, ih]
      · show closeCount (Ev.wire _ :: Ev.sleep _ ::
            (interactiveLoop rest (decrIntr intr)).1) = 0
        rw [closeCount_cons_not (Ev.wire _) _ rfl,
          closeCount_cons_not (Ev.sleep _) _ rfl, ih]
      · exact ih _

theorem interactiveLoop_returns_of_quit (lines : List String)
    (intr : Option Nat) (h : ∃ l ∈ lines, dispatch l = IAction.quit) :
    (interactiveLoop lines intr).2 = true := by
  induction lines generalizing intr with
  | nil => simp at h
  | cons l rest ih =>
    rcases intr with _ | n
    · rw [interactiveLoop_cons_ne l rest none (by simp)]
      cases hd : dispatch l
      · rfl
      all_goals {
        have h2 : ∃ x ∈ rest, dispatch x = IAction.quit := by
          rcases h with ⟨x, hx, hdx⟩
          rcases List.mem_cons.mp hx with rfl | hx2
          · rw [hd] at hdx
            exact absurd hdx (by simp)
          · exact ⟨x, hx2, hdx⟩
        simp [ih _ h2] }
    · cases n with
      | zero => rfl
      | succ m =>
        rw [interactiveLoop_cons_ne l rest (some (m + 1)) (by simp)]
        cases hd : dispatch l
        · rfl
        all_goals {
          have h2 : ∃ x ∈ rest, dispatch x = IAction.quit := by
            rcases h with ⟨x, hx, hdx⟩
            rcases List.mem_cons.mp hx with rfl | hx2
            · rw [hd] at hdx
              exact absurd hdx (by simp)
            · exact ⟨x, hx2, hdx⟩
          simp [ih _ h2] }

theorem interactiveLoop_returns_of_intr (lines : List String) (n : Nat)
    (h : n ≤ lines.length) :
    (interactiveLoop lines (some n)).2 = true := by
  induction lines generalizing n with
  | nil =>
    have h0 : n = 0 := Nat.le_zero.mp (by simpa using h)
    subst h0
    rfl
  | cons l rest ih =>
    cases n with
    | zero => rfl
    | succ m =>
      rw [interactiveLoop_cons_ne l rest (some (m + 1)) (by simp)]
      have hm : m ≤ rest.length := by simpa using h
      cases hd : dispatch l <;> simp [decrIntr, ih m hm]

/-- Claim C5 as stated is false on the code: in the CLI-argument demo mode a
user interrupt during the demo sequence is not caught anywhere (neither
`demo_mode` nor `main` has a handler), so the run aborts before
`ser.close()` and the connection is closed zero times — while the same run
without an interrupt closes it exactly once. -/
theorem c5_cex_demo_interrupt_skips_close :
    closeCount (mainTail (some "demo") [] none true) = 0 ∧
    closeCount (mainTail (some "demo") [] none false) = 1 := by
  decide

/-- Claim C5 (amended): a successfully opened connection is closed exactly
once at session end in the Interactive Session — whether the session ends by
a QUIT line or by a user interrupt caught at the blocking input call — and
in the CLI-argument demo mode when the demo completes without interruption;
an interrupt during the CLI demo, however, aborts the run without the
explicit close. -/
theorem c5_close_exactly_once (lines : List String) (intr : Option Nat)
    (n : Nat) (hq : ∃ l ∈ lines, dispatch l = IAction.quit)
    (hn : n ≤ lines.length) :
    closeCount (mainTail none lines intr false) = 1 ∧
    closeCount (mainTail none lines (some n) false) = 1 ∧
    closeCount (mainTail (some "demo") lines intr false) = 1 ∧
    closeCount (mainTail (some "demo") lines intr true) = 0 := by
  have hdemoArg : isDemoArg (some "demo") = true := by decide
  have hinterArg : isDemoArg none = false := rfl
  refine ⟨?_, ?_, ?_, ?_⟩
  · have hr : (interactive_mode lines intr).2 = true :=
      interactiveLoop_returns_of_quit lines intr hq
    show closeCount (mainTail none lines intr false) = 1
    unfold mainTail
    rw [hinterArg]
    simp only [Bool.false_eq_true, if_false, hr, if_true]
    rw [show (interactive_mode lines intr).1 =
      interactiveBanner ++ (interactiveLoop lines intr).1 from rfl]
    rw [closeCount_append, closeCount_append, closeCount_banner,
      interactiveLoop_no_close]
    rfl
  · have hr : (interactive_mode lines (some n)).2 = true :=
      interactiveLoop_returns_of_intr lines n hn
    unfold mainTail
    rw [hinterArg]
    simp only [Bool.false_eq_true, if_false, hr, if_true]
    rw [show (interactive_mode lines (some n)).1 =
      interactiveBanner ++ (interactiveLoop lines (some n)).1 from rfl]
    rw [closeCount_append, closeCount_append, closeCount_banner,
      interactiveLoop_no_close]
    rfl
  · unfold mainTail
    rw [hdemoArg]
    simp only [if_true, Bool.false_eq_true, if_false]
    rw [closeCount_append, closeCount_demo]
    rfl
  · unfold mainTail
    rw [hdemoArg]
    simp only [if_true]
    decide

/-- Witness for the amended claim C5 at concrete inputs. -/
theorem c5_witness :
    closeCount (mainTail none ["quit"] none false) = 1 ∧
    closeCount (mainTail none ["quit"] (some 1) false) = 1 ∧
    closeCount (mainTail (some "demo") ["quit"] none false) = 1 ∧
    closeCount (mainTail (some "demo") ["quit"] none true) = 0 :=
  c5_close_exactly_once ["quit"] none 1 ⟨"quit", by decide, by decide⟩
    (by decide)

theorem prompt_not_mem_enumOut (s : String) (ports : List PortInfo) :
    CEvent.prompt s ∉ enumOut ports := by
  simp [enumOut]

theorem openPort_not_mem_enumOut (p : String) (ports : List PortInfo) :
    CEvent.openPort p ∉ enumOut ports := by
  simp [enumOut]

/-- Claim C6: whenever the enumeration finds exactly one candidate device and
no port path was given, `connect_to_device` announces and auto-selects that
candidate's port, never prompts the user, and attempts to open exactly that
port (succeeding when the serial open succeeds). -/
theorem c6_auto_select (ports : List PortInfo) (sel : Option Int)
    (openOk : Bool) (d : PortInfo)
    (h : (list_devices ports).2 = [d]) :
    CEvent.out ("\nAuto-detected motor controller on " ++ d.device) ∈
      (connect_to_device none ports sel openOk).2 ∧
    (∀ s, CEvent.prompt s ∉ (connect_to_device none ports sel openOk).2) ∧
    CEvent.openPort d.device ∈ (connect_to_device none ports sel openOk).2 ∧
    (openOk = true →
      (connect_to_device none ports sel openOk).1 = some d.device) := by
  have hf : ports.filter isCandidate = [d] := by
    simpa [list_devices] using h
  cases openOk <;>
    refine ⟨?_, ?_, ?_, ?_⟩ <;>
      simp [connect_to_device, list_devices, hf, openSerial, enumOut]

/-- Witness for claim C6 at a concrete single-candidate enumeration. -/
theorem c6_witness :
    (connect_to_device none
      [⟨"/dev/ttyACM0", "Tilta Motor Control", none⟩] none true).1 =
      some "/dev/ttyACM0" :=
  (c6_auto_select [⟨"/dev/ttyACM0", "Tilta Motor Control", none⟩] none true
    ⟨"/dev/ttyACM0", "Tilta Motor Control", none⟩ (by decide)).2.2.2 rfl

/-- Claim C7: whenever `connect_to_device` prompts for a selection (several
candidates, or no candidate but some ports) and the entry is non-numeric or
out of range of the offered list, it prints an error ("Invalid input!" or
"Invalid selection!"), returns no connection, and never attempts to open a
serial port. -/
theorem c7_invalid_selection (ports : List PortInfo) (sel : Option Int)
    (openOk : Bool)
    (h : (2 ≤ (list_devices ports).2.length ∧
            BadSel sel (list_devices ports).2.length) ∨
         ((list_devices ports).2 = [] ∧ ports ≠ [] ∧
            BadSel sel ports.length)) :
    (connect_to_device none ports sel openOk).1 = none ∧
    (∀ p, CEvent.openPort p ∉ (connect_to_device none ports sel openOk).2) ∧
    (CEvent.out "Invalid input!" ∈ (connect_to_device none ports sel openOk).2
      ∨ CEvent.out "Invalid selection!" ∈
        (connect_to_device none ports sel openOk).2) := by
  rcases h with ⟨h2, hbad⟩ | ⟨h0, hne, hbad⟩
  · simp only [list_devices] at h2 hbad
    have hA : (ports.filter isCandidate).length ≠ 0 := by omega
    have hB : (ports.filter isCandidate).length ≠ 1 := by omega
    rcases hbad with rfl | ⟨k, rfl, hk⟩
    · refine ⟨?_, ?_, Or.inl ?_⟩ <;>
        simp [connect_to_device, list_devices, hA, hB, enumOut]
    · have hcond : ¬(0 ≤ k ∧ k < ((ports.filter isCandidate).length : Int)) := by
        omega
      refine ⟨?_, ?_, Or.inr ?_⟩ <;>
        simp [connect_to_device, list_devices, hA, hB, hcond, enumOut]
  · simp only [list_devices] at h0 hbad
    have hA : ¬((ports.filter isCandidate).length ≠ 0) := by
      simp [h0]
    have hP : ¬(ports.length = 0) := by
      simpa [List.length_eq_zero] using hne
    rcases hbad with rfl | ⟨k, rfl, hk⟩
    · refine ⟨?_, ?_, Or.inl ?_⟩ <;>
        simp [connect_to_device, list_devices, hA, hP, enumOut]
    · have hcond : ¬(0 ≤ k ∧ k < (ports.length : Int)) := by
        omega
      refine ⟨?_, ?_, Or.inr ?_⟩ <;>
        simp [connect_to_device, list_devices, hA, hP, hcond, enumOut]

/-- Witness for claim C7: two candidates offered, entry "5" is out of range:
failure, no open attempt. -/
theorem c7_witness :
    (connect_to_device none
      [⟨"/dev/ttyACM0", "Tilta Motor Control", none⟩,
       ⟨"/dev/ttyACM1", "Tilta Motor Control", none⟩] (some 5) true).1 =
      none :=
  (c7_invalid_selection
    [⟨"/dev/ttyACM0", "Tilta Motor Control", none⟩,
     ⟨"/dev/ttyACM1", "Tilta Motor Control", none⟩] (some 5) true
    (Or.inl ⟨by decide, Or.inr ⟨5, rfl, by decide⟩⟩)).1

/-- Claim C8: when the enumeration yields zero candidate devices,
`connect_to_device` fails immediately with "No serial ports found!" (no
prompt, no open attempt, no connection) if there are no ports at all; and
otherwise prompts over the full port list with the same index-validation
rule: a valid index opens that port of the full list, an invalid or
non-numeric entry yields no connection and no open attempt. -/
theorem c8_zero_candidates (ports : List PortInfo) (sel : Option Int)
    (openOk : Bool) (h : (list_devices ports).2 = []) :
    (ports = [] →
      (connect_to_device none ports sel openOk).1 = none ∧
      CEvent.out "No serial ports found!" ∈
        (connect_to_device none ports sel openOk).2 ∧
      (∀ s, CEvent.prompt s ∉ (connect_to_device none ports sel openOk).2) ∧
      (∀ p, CEvent.openPort p ∉ (connect_to_device none ports sel openOk).2))
    ∧
    (ports ≠ [] →
      CEvent.prompt "\nNo motor controller found. Select port number: " ∈
        (connect_to_device none ports sel openOk).2 ∧
      (∀ k : Int, sel = some k → 0 ≤ k → k < (ports.length : Int) →
        CEvent.openPort (ports.getD k.toNat dummyPort).device ∈
          (connect_to_device none ports sel openOk).2 ∧
        (openOk = true → (connect_to_device none ports sel openOk).1 =
          some (ports.getD k.toNat dummyPort).device)) ∧
      (BadSel sel ports.length →
        (connect_to_device none ports sel openOk).1 = none ∧
        (∀ p, CEvent.openPort p ∉
          (connect_to_device none ports sel openOk).2))) := by
  have hf : ports.filter isCandidate = [] := by
    simpa [list_devices] using h
  have hA : ¬((ports.filter isCandidate).length ≠ 0) := by
    simp [hf]
  constructor
  · rintro rfl
    refine ⟨?_, ?_, ?_, ?_⟩ <;>
      simp [connect_to_device, list_devices, enumOut]
  · intro hne
    have hP : ¬(ports.length = 0) := by
      simpa [List.length_eq_zero] using hne
    refine ⟨?_, ?_, ?_⟩
    · rcases sel with _ | k
      · simp [connect_to_device, list_devices, hA, hP, enumOut]
      · by_cases hcond : 0 ≤ k ∧ k < (ports.length : Int)
        · cases openOk <;>
            simp [connect_to_device, list_devices, hA, hP, hcond, enumOut,
              openSerial]
        · simp [connect_to_device, list_devices, hA, hP, hcond, enumOut]
    · intro k hk h0 hlen
      subst hk
      have hcond : 0 ≤ k ∧ k < (ports.length : Int) := ⟨h0, hlen⟩
      cases openOk <;>
        refine ⟨?_, ?_⟩ <;>
          simp [connect_to_device, list_devices, hA, hP, hcond, enumOut,
            openSerial]
    · intro hbad
      rcases hbad with rfl | ⟨k, rfl, hk⟩
      · refine ⟨?_, ?_⟩ <;>
          simp [connect_to_device, list_devices, hA, hP, enumOut]
      · have hcond : ¬(0 ≤ k ∧ k < (ports.length : Int)) := by
          omega
        refine ⟨?_, ?_⟩ <;>
          simp [connect_to_device, list_devices, hA, hP, hcond, enumOut]

/-- Witness for claim C8: one non-candidate port; the prompt is over the full
port list and entry "0" opens that port. -/
theorem c8_witness :
    CEvent.prompt "\nNo motor controller found. Select port number: " ∈
      (connect_to_device none [⟨"/dev/ttyS0", "UART bridge", none⟩]
        (some 0) true).2 ∧
    (connect_to_device none [⟨"/dev/ttyS0", "UART bridge", none⟩]
      (some 0) true).1 = some "/dev/ttyS0" := by
  have hth := c8_zero_candidates [⟨"/dev/ttyS0", "UART bridge", none⟩]
    (some 0) true (by decide)
  refine ⟨(hth.2 (by decide)).1, ?_⟩
  exact ((hth.2 (by decide)).2.1 0 rfl (by decide) (by decide)).2 rfl
